import Mathlib

/-!
Verification of `sender_sinewave.c` (roc-toolkit sender example).

The example is a straight-line C program that builds a sine wave and hands it,
frame by frame, to the roc sender library.  We embed it shallowly:

* every checked library call is given a success/failure oracle (`Env`); the
  three `roc_endpoint_set_*` calls per endpoint are made with their return
  values discarded by the example, so they do not enter the oracle;
* `run` replays `main`'s exact call sequence, producing the list of library
  calls made (`Event`s, in order) and the process exit code (`oops` prints and
  calls `exit(1)`; the final `return 0` gives exit code 0);
* `gensine` is modelled by the ordered list of its stores
  (`gensineWrites` : buffer index and stored value); C `size_t` arithmetic in
  `batch_num * num_samples / 2` is modelled exactly, including 64-bit
  wraparound of the product; `double`/`float` rounding is abstracted by real
  arithmetic (the stored value is `sin(coef * t) * 0.1` with
  `coef = 2 * 3.14159265359 * 440 / 44100` taken as an exact rational);
* the stream encoder inside the library is not part of the sources; it is
  modelled from the spec where a claim needs it.
-/

namespace SenderSinewave

/-! Constants of the source file (`#define`s). -/

def EXAMPLE_RECEIVER_IP : String := "127.0.0.1"

def EXAMPLE_RECEIVER_SOURCE_PORT : ℕ := 10001

def EXAMPLE_RECEIVER_REPAIR_PORT : ℕ := 10002

def EXAMPLE_SAMPLE_RATE : ℕ := 44100

def EXAMPLE_SINE_RATE : ℕ := 440

def EXAMPLE_SINE_SAMPLES : ℕ := EXAMPLE_SAMPLE_RATE * 5

def EXAMPLE_BUFFER_SIZE : ℕ := 100

/-- Bytes in a C `float` on the platforms the library supports (IEEE single). -/
def floatBytes : ℕ := 4

/-- Number of loop iterations of the write loop:
`EXAMPLE_SINE_SAMPLES / EXAMPLE_BUFFER_SIZE`. -/
def numWrites : ℕ := EXAMPLE_SINE_SAMPLES / EXAMPLE_BUFFER_SIZE

/-! Model of `gensine`. -/

/-- The constant factor `2 * 3.14159265359 * EXAMPLE_SINE_RATE /
EXAMPLE_SAMPLE_RATE` of the sine argument (C evaluates it left to right in
`double`; we take the exact rational value). -/
noncomputable def sineCoef : ℝ := 2 * 3.14159265359 * 440 / 44100

/-- The initial time index `t` of a batch: C computes
`batch_num * num_samples / 2` in `size_t` (truncating division, and the
product wraps modulo `2 ^ 64` on a 64-bit target). -/
def gensineStart (batch_num num_samples : ℕ) : ℕ :=
  batch_num * num_samples % 2 ^ 64 / 2

/-- The value the loop body computes for the left channel at time index `t`:
`(float)sin(2 * 3.14159265359 * 440 / 44100 * t) * 0.1f`, with floating-point
rounding abstracted away. -/
noncomputable def sampleVal (t : ℕ) : ℝ :=
  Real.sin (sineCoef * t) * 0.1

/-- The ordered list of stores `gensine` performs: for each `i <
num_samples / 2` it stores `s` at buffer index `i * 2` and `-s` at
`i * 2 + 1`, where `s = sampleVal (start + i)`. -/
noncomputable def gensineWrites (batch_num num_samples : ℕ) : List (ℕ × ℝ) :=
  (List.range (num_samples / 2)).flatMap fun i =>
    [(i * 2, sampleVal (gensineStart batch_num num_samples + i)),
     (i * 2 + 1, -sampleVal (gensineStart batch_num num_samples + i))]

/-- Just the target indices of `gensine`'s stores (independent of
`batch_num`). -/
def gensineStores (num_samples : ℕ) : List ℕ :=
  (List.range (num_samples / 2)).flatMap fun i => [i * 2, i * 2 + 1]

/-- The left-channel sample value as the spec sentence for claim C10 words
it: `sin(coef * (b * (num_samples / 2) + i)) * 0.1` (a second definition,
following the claim's words, to be compared with `gensineWrites`). -/
noncomputable def specLeftSample (b n i : ℕ) : ℝ :=
  Real.sin (sineCoef * ((b * (n / 2) + i : ℕ) : ℝ)) * 0.1

/-! Data model of the library calls the example makes. -/

/-- The two endpoint roles used by the example. -/
inductive Role where
  | source : Role
  | repair : Role
deriving DecidableEq

/-- The two endpoint protocols used by the example. -/
inductive Proto where
  | rtp_rs8m_source : Proto
  | rs8m_repair : Proto
deriving DecidableEq

/-- Channel sets (the example only uses `ROC_CHANNEL_SET_STEREO`). -/
inductive ChannelSet where
  | stereo : ChannelSet
deriving DecidableEq

/-- Frame encodings (the example only uses `ROC_FRAME_ENCODING_PCM_FLOAT`). -/
inductive FrameEncoding where
  | pcm_float : FrameEncoding
deriving DecidableEq

/-- Clock sources (the example only uses `ROC_CLOCK_INTERNAL`). -/
inductive ClockSource where
  | internal : ClockSource
deriving DecidableEq

/-- The sender configuration fields the example sets. -/
structure SenderConfig where
  frame_sample_rate : ℕ
  frame_channels : ChannelSet
  frame_encoding : FrameEncoding
  clock_source : ClockSource
deriving DecidableEq

/-- Number of interleaved channels described by a channel set. -/
def channelCount : ChannelSet → ℕ
  | ChannelSet.stereo => 2

/-- The configuration `main` builds (lines 83-94 of the source). -/
def exampleSenderConfig : SenderConfig :=
  ⟨EXAMPLE_SAMPLE_RATE, ChannelSet.stereo, FrameEncoding.pcm_float,
    ClockSource.internal⟩

/-- A `roc_frame` as the example fills it: the sample array length and the
declared byte size `samples_size`.  (The sample values themselves are
modelled by `gensineWrites`.) -/
structure Frame where
  numSamples : ℕ
  samples_size : ℕ
deriving DecidableEq

/-- The frame `main` passes on every iteration: a 100-float array with
`samples_size = EXAMPLE_BUFFER_SIZE * sizeof(float)`. -/
def theFrame : Frame :=
  ⟨EXAMPLE_BUFFER_SIZE, EXAMPLE_BUFFER_SIZE * floatBytes⟩

/-- One library call made by the example, with the arguments relevant to the
claims. -/
inductive Event where
  | ctx_open : Event
  | sender_open : SenderConfig → Event
  | endpoint_allocate : Role → Event
  | endpoint_set_protocol : Role → Proto → Event
  | endpoint_set_host : Role → String → Event
  | endpoint_set_port : Role → ℕ → Event
  | sender_connect : Role → Event
  | endpoint_deallocate : Role → Event
  | sender_write : Frame → Event
  | sender_close : Event
  | ctx_close : Event
deriving DecidableEq

/-- Success/failure oracle for the checked library calls (every call whose
result `main` tests with `!= 0`).  The `roc_endpoint_set_*` calls are not
here: the example discards their return values. -/
structure Env where
  ctx_open_ok : Bool
  sender_open_ok : Bool
  alloc_source_ok : Bool
  connect_source_ok : Bool
  dealloc_source_ok : Bool
  alloc_repair_ok : Bool
  connect_repair_ok : Bool
  dealloc_repair_ok : Bool
  write_ok : ℕ → Bool
  sender_close_ok : Bool
  ctx_close_ok : Bool

/-- A checked call: record the event; on failure `oops` exits with code 1
and nothing further runs. -/
def step (ok : Bool) (ev : Event) (rest : List Event × ℕ) : List Event × ℕ :=
  if ok then (ev :: rest.1, rest.2) else ([ev], 1)

/-- An unchecked call (result discarded): record the event and continue. -/
def emit (ev : Event) (rest : List Event × ℕ) : List Event × ℕ :=
  (ev :: rest.1, rest.2)

/-- The write loop (`for (i = 0; i < EXAMPLE_SINE_SAMPLES /
EXAMPLE_BUFFER_SIZE; i++)`), with `i` the next loop index and the second
argument the remaining iteration count.  Returns the write events made and
whether the loop ran to completion. -/
def writeLoop (env : Env) (i : ℕ) : ℕ → List Event × Bool
  | 0 => ([], true)
  | k + 1 =>
    if env.write_ok i then
      (Event.sender_write theFrame :: (writeLoop env (i + 1) k).1,
       (writeLoop env (i + 1) k).2)
    else
      ([Event.sender_write theFrame], false)

/-- The tail of `main` from the write loop on: run the loop, then close the
sender and the context. -/
def writePhase (env : Env) : List Event × ℕ :=
  if (writeLoop env 0 numWrites).2 then
    ((writeLoop env 0 numWrites).1 ++
      (step env.sender_close_ok Event.sender_close
        (step env.ctx_close_ok Event.ctx_close ([], 0))).1,
     (step env.sender_close_ok Event.sender_close
        (step env.ctx_close_ok Event.ctx_close ([], 0))).2)
  else
    ((writeLoop env 0 numWrites).1, 1)

/-- The whole of `main`: the exact sequence of library calls, in source
order, and the resulting exit code. -/
def run (env : Env) : List Event × ℕ :=
  step env.ctx_open_ok Event.ctx_open <|
  step env.sender_open_ok (Event.sender_open exampleSenderConfig) <|
  step env.alloc_source_ok (Event.endpoint_allocate Role.source) <|
  emit (Event.endpoint_set_protocol Role.source Proto.rtp_rs8m_source) <|
  emit (Event.endpoint_set_host Role.source EXAMPLE_RECEIVER_IP) <|
  emit (Event.endpoint_set_port Role.source EXAMPLE_RECEIVER_SOURCE_PORT) <|
  step env.connect_source_ok (Event.sender_connect Role.source) <|
  step env.dealloc_source_ok (Event.endpoint_deallocate Role.source) <|
  step env.alloc_repair_ok (Event.endpoint_allocate Role.repair) <|
  emit (Event.endpoint_set_protocol Role.repair Proto.rs8m_repair) <|
  emit (Event.endpoint_set_host Role.repair EXAMPLE_RECEIVER_IP) <|
  emit (Event.endpoint_set_port Role.repair EXAMPLE_RECEIVER_REPAIR_PORT) <|
  step env.connect_repair_ok (Event.sender_connect Role.repair) <|
  step env.dealloc_repair_ok (Event.endpoint_deallocate Role.repair) <|
  writePhase env

/-- The oracle under which every checked call succeeds. -/
def allOk : Env :=
  ⟨true, true, true, true, true, true, true, true, fun _ => true, true, true⟩

/-- An oracle where `roc_sender_open` fails (a configuration error in the
taxonomy of the spec) and everything else would succeed. -/
def envSenderOpenFail : Env :=
  ⟨true, false, true, true, true, true, true, true, fun _ => true, true, true⟩

/-- An oracle where the first `roc_sender_write` fails (a format,
backpressure, encode or transport error in the taxonomy of the spec) and
everything else would succeed. -/
def envWriteFail : Env :=
  ⟨true, true, true, true, true, true, true, true, fun _ => false, true, true⟩

/-- Every checked call the program reaches succeeds. -/
def allCheckedOk (env : Env) : Prop :=
  env.ctx_open_ok = true ∧ env.sender_open_ok = true ∧
  env.alloc_source_ok = true ∧ env.connect_source_ok = true ∧
  env.dealloc_source_ok = true ∧ env.alloc_repair_ok = true ∧
  env.connect_repair_ok = true ∧ env.dealloc_repair_ok = true ∧
  (∀ i, i < numWrites → env.write_ok i = true) ∧
  env.sender_close_ok = true ∧ env.ctx_close_ok = true

/-! Event predicates used to state the claims. -/

/-- Is a `roc_sender_write` call. -/
def isWriteEvent : Event → Bool
  | Event.sender_write _ => true
  | _ => false

/-- Is a `roc_sender_open` call. -/
def isSenderOpenEvent : Event → Bool
  | Event.sender_open _ => true
  | _ => false

/-- Is a `roc_sender_connect` call for the given role. -/
def isConnectEvent (r : Role) : Event → Bool
  | Event.sender_connect r' => r' == r
  | _ => false

/-- Is any event touching the endpoint descriptor of the given role
(allocate, the three setters, connect, deallocate). -/
def isEndpointEvent (r : Role) : Event → Bool
  | Event.endpoint_allocate r' => r' == r
  | Event.endpoint_set_protocol r' _ => r' == r
  | Event.endpoint_set_host r' _ => r' == r
  | Event.endpoint_set_port r' _ => r' == r
  | Event.sender_connect r' => r' == r
  | Event.endpoint_deallocate r' => r' == r
  | _ => false

/-- Is a `roc_sender_close` call. -/
def isSenderCloseEvent : Event → Bool
  | Event.sender_close => true
  | _ => false

/-- Is a `roc_context_close` call. -/
def isCtxCloseEvent : Event → Bool
  | Event.ctx_close => true
  | _ => false

/-- Is a sender-session operation (open, connect, write, close of the
session). -/
def isSessionOpEvent : Event → Bool
  | Event.sender_open _ => true
  | Event.sender_connect _ => true
  | Event.sender_write _ => true
  | Event.sender_close => true
  | _ => false

/-- The 14 events before the write loop, in source order. -/
def okSetup : List Event :=
  [Event.ctx_open, Event.sender_open exampleSenderConfig,
   Event.endpoint_allocate Role.source,
   Event.endpoint_set_protocol Role.source Proto.rtp_rs8m_source,
   Event.endpoint_set_host Role.source EXAMPLE_RECEIVER_IP,
   Event.endpoint_set_port Role.source EXAMPLE_RECEIVER_SOURCE_PORT,
   Event.sender_connect Role.source,
   Event.endpoint_deallocate Role.source,
   Event.endpoint_allocate Role.repair,
   Event.endpoint_set_protocol Role.repair Proto.rs8m_repair,
   Event.endpoint_set_host Role.repair EXAMPLE_RECEIVER_IP,
   Event.endpoint_set_port Role.repair EXAMPLE_RECEIVER_REPAIR_PORT,
   Event.sender_connect Role.repair,
   Event.endpoint_deallocate Role.repair]

/-- The full call trace of a run in which every call succeeds. -/
def okTrace : List Event :=
  okSetup ++ List.replicate numWrites (Event.sender_write theFrame) ++
    [Event.sender_close, Event.ctx_close]

/-! Model of the sender-pipeline stream encoder (claim C7). -/

/-- A media packet with its sequence number and payload. -/
structure SourcePacket where
  seq : ℕ
  payload : List ℝ

/-- Modelled from the spec: the Stream Encoder of the sender pipeline (roc
library internals, not part of the sources here).  Per the spec it slices
the paced sample stream into packets and attaches strictly increasing
sequence numbers starting at an initial value, incrementing by one per
packet, with no reordering or duplication.  `s` is the next sequence number
and the argument list holds the consecutive packet payloads produced by a
sequence of successful writes. -/
def encodeStream (s : ℕ) : List (List ℝ) → List SourcePacket
  | [] => []
  | c :: rest => ⟨s, c⟩ :: encodeStream (s + 1) rest

/-! Helper lemmas. -/

lemma numWrites_eq : numWrites = 2205 := by
  norm_num [numWrites, EXAMPLE_SINE_SAMPLES, EXAMPLE_SAMPLE_RATE,
    EXAMPLE_BUFFER_SIZE]

lemma writeLoop_allOk : ∀ k i, writeLoop allOk i k =
    (List.replicate k (Event.sender_write theFrame), true) := by
  intro k
  induction k with
  | zero => intro i; rfl
  | succ k ih =>
    intro i
    rw [writeLoop, if_pos (show allOk.write_ok i = true from rfl), ih (i + 1)]
    rfl

lemma run_allOk : run allOk = (okTrace, 0) := by
  rw [run, writePhase, writeLoop_allOk]
  simp [step, emit, allOk, okTrace, okSetup]

lemma takeWhile_append_of_all {α : Type} (p : α → Bool) (l₁ l₂ : List α)
    (h : ∀ a ∈ l₁, p a = true) :
    (l₁ ++ l₂).takeWhile p = l₁ ++ l₂.takeWhile p := by
  induction l₁ with
  | nil => simp
  | cons a t ih => simp_all [List.takeWhile_cons]

lemma dropWhile_append_of_all {α : Type} (p : α → Bool) (l₁ l₂ : List α)
    (h : ∀ a ∈ l₁, p a = true) :
    (l₁ ++ l₂).dropWhile p = l₂.dropWhile p := by
  induction l₁ with
  | nil => simp
  | cons a t ih => simp_all [List.dropWhile_cons]

lemma all_setup_rep {p : Event → Bool} (hpre : ∀ a ∈ okSetup, p a = true)
    (hw : p (Event.sender_write theFrame) = true) :
    ∀ a ∈ okSetup ++ List.replicate numWrites (Event.sender_write theFrame),
      p a = true := by
  intro a ha
  rcases List.mem_append.mp ha with h | h
  · exact hpre a h
  · rw [List.eq_of_mem_replicate h]; exact hw

lemma okTrace_takeWhile_write :
    (okTrace.takeWhile fun e => !isWriteEvent e) = okSetup := by
  rw [okTrace, List.append_assoc,
    takeWhile_append_of_all _ _ _ (by decide), numWrites_eq,
    show (2205 : ℕ) = 2204 + 1 by norm_num, List.replicate_succ,
    List.cons_append, List.takeWhile_cons]
  norm_num [isWriteEvent]

lemma okTrace_dropWhile_write :
    (okTrace.dropWhile fun e => !isWriteEvent e) =
      List.replicate numWrites (Event.sender_write theFrame) ++
        [Event.sender_close, Event.ctx_close] := by
  rw [okTrace, List.append_assoc,
    dropWhile_append_of_all _ _ _ (by decide), numWrites_eq,
    show (2205 : ℕ) = 2204 + 1 by norm_num, List.replicate_succ,
    List.cons_append, List.dropWhile_cons]
  norm_num [isWriteEvent]

/-! Claim C1. -/

/-- Claim C1, as stated, is false: with every call succeeding, the program
does not call `roc_sender_write` 22 times. -/
theorem C1_counterexample : (run allOk).1.countP isWriteEvent ≠ 22 := by
  rw [run_allOk]
  show okTrace.countP isWriteEvent ≠ 22
  rw [okTrace, List.countP_append, List.countP_append, List.countP_replicate,
    numWrites_eq]
  norm_num [okSetup, isWriteEvent, List.countP_cons]

/-- Claim C1 (amended): in the all-success run the program calls
`roc_sender_write` with 100-sample frames exactly 2205 times
(`220500 / 100`, five seconds' worth of mono sample count at 44100 Hz,
i.e. 2.5 s of stereo audio), all before `roc_sender_close`, and exits 0. -/
theorem C1_writes_count :
    (run allOk).1.countP isWriteEvent = 2205 ∧
    numWrites * EXAMPLE_BUFFER_SIZE = EXAMPLE_SINE_SAMPLES ∧
    ((run allOk).1.dropWhile fun e => !isSenderCloseEvent e).countP
      isWriteEvent = 0 ∧
    (run allOk).2 = 0 := by
  refine ⟨?_, by norm_num [numWrites_eq, numWrites, EXAMPLE_BUFFER_SIZE,
    EXAMPLE_SINE_SAMPLES, EXAMPLE_SAMPLE_RATE], ?_, by rw [run_allOk]⟩
  · rw [run_allOk]
    show okTrace.countP isWriteEvent = 2205
    rw [okTrace, List.countP_append, List.countP_append,
      List.countP_replicate, numWrites_eq]
    norm_num [okSetup, isWriteEvent, List.countP_cons]
  · rw [run_allOk]
    show (okTrace.dropWhile fun e => !isSenderCloseEvent e).countP
      isWriteEvent = 0
    rw [okTrace,
      dropWhile_append_of_all _ _ _
        (all_setup_rep (by decide) (by decide)),
      List.dropWhile_cons]
    norm_num [isSenderCloseEvent, isWriteEvent, List.countP_cons]

/-! More helpers on the all-success trace. -/

lemma okTrace_countP {p : Event → Bool}
    (hp : p (Event.sender_write theFrame) = false) :
    okTrace.countP p = okSetup.countP p +
      ([Event.sender_close, Event.ctx_close] : List Event).countP p := by
  rw [okTrace, List.countP_append, List.countP_append, List.countP_replicate,
    hp]
  simp

lemma okTrace_filter {p : Event → Bool}
    (hp : p (Event.sender_write theFrame) = false) :
    okTrace.filter p = okSetup.filter p ++
      ([Event.sender_close, Event.ctx_close] : List Event).filter p := by
  rw [okTrace, List.filter_append, List.filter_append, List.filter_replicate,
    hp]
  simp

lemma okTrace_takeWhile_ctx :
    (okTrace.takeWhile fun e => !isCtxCloseEvent e) =
      (okSetup ++ List.replicate numWrites (Event.sender_write theFrame)) ++
        [Event.sender_close] := by
  have hall : ∀ a ∈ (okSetup ++
      List.replicate numWrites (Event.sender_write theFrame)) ++
      [Event.sender_close], (!isCtxCloseEvent a) = true := by
    intro a ha
    rcases List.mem_append.mp ha with h | h
    · exact @all_setup_rep (fun e => !isCtxCloseEvent e) (by decide)
        (by decide) a h
    · simp at h; subst h; decide
  rw [okTrace, show ([Event.sender_close, Event.ctx_close] : List Event) =
      [Event.sender_close] ++ [Event.ctx_close] from rfl,
    ← List.append_assoc, takeWhile_append_of_all _ _ _ hall,
    List.takeWhile_cons]
  norm_num [isCtxCloseEvent]

lemma okTrace_dropWhile_ctx :
    (okTrace.dropWhile fun e => !isCtxCloseEvent e) = [Event.ctx_close] := by
  have hall : ∀ a ∈ (okSetup ++
      List.replicate numWrites (Event.sender_write theFrame)) ++
      [Event.sender_close], (!isCtxCloseEvent a) = true := by
    intro a ha
    rcases List.mem_append.mp ha with h | h
    · exact @all_setup_rep (fun e => !isCtxCloseEvent e) (by decide)
        (by decide) a h
    · simp at h; subst h; decide
  rw [okTrace, show ([Event.sender_close, Event.ctx_close] : List Event) =
      [Event.sender_close] ++ [Event.ctx_close] from rfl,
    ← List.append_assoc, dropWhile_append_of_all _ _ _ hall,
    List.dropWhile_cons]
  norm_num [isCtxCloseEvent]

/-! Claim C3. -/

/-- Claim C3: in the all-success run, `roc_sender_open` (with its config) and
the two `roc_sender_connect` calls each occur exactly once; each of them lies
in the maximal write-free prefix of the trace (so before the first
`roc_sender_write`); and from the first write on, no open or connect
occurs. -/
theorem C3_once_before_writes :
    (run allOk).1.countP isSenderOpenEvent = 1 ∧
    (run allOk).1.countP (isConnectEvent Role.source) = 1 ∧
    (run allOk).1.countP (isConnectEvent Role.repair) = 1 ∧
    ((run allOk).1.takeWhile fun e => !isWriteEvent e).countP
      isSenderOpenEvent = 1 ∧
    ((run allOk).1.takeWhile fun e => !isWriteEvent e).countP
      (isConnectEvent Role.source) = 1 ∧
    ((run allOk).1.takeWhile fun e => !isWriteEvent e).countP
      (isConnectEvent Role.repair) = 1 ∧
    ((run allOk).1.dropWhile fun e => !isWriteEvent e).countP
      (fun e => isSenderOpenEvent e || isConnectEvent Role.source e ||
        isConnectEvent Role.repair e) = 0 := by
  rw [run_allOk]
  refine ⟨?_, ?_, ?_, ?_, ?_, ?_, ?_⟩
  · show okTrace.countP _ = 1
    rw [okTrace_countP (by decide)]; decide
  · show okTrace.countP _ = 1
    rw [okTrace_countP (by decide)]; decide
  · show okTrace.countP _ = 1
    rw [okTrace_countP (by decide)]; decide
  · show (okTrace.takeWhile _).countP _ = 1
    rw [okTrace_takeWhile_write]; decide
  · show (okTrace.takeWhile _).countP _ = 1
    rw [okTrace_takeWhile_write]; decide
  · show (okTrace.takeWhile _).countP _ = 1
    rw [okTrace_takeWhile_write]; decide
  · show (okTrace.dropWhile _).countP _ = 0
    rw [okTrace_dropWhile_write, List.countP_append, List.countP_replicate]
    decide

/-! Claim C5. -/

/-- Claim C5: in the all-success run, the events touching the source
endpoint descriptor are exactly allocate, set protocol
(RTP+RS8M source), set host (127.0.0.1), set port (10001), connect,
deallocate, in that order, and likewise for the repair endpoint (RS8M
repair, port 10002); and no endpoint-descriptor event occurs at or after
the first write (so each descriptor is deallocated right after its connect
succeeds, before any write). -/
theorem C5_endpoint_lifecycle :
    (run allOk).1.filter (isEndpointEvent Role.source) =
      [Event.endpoint_allocate Role.source,
       Event.endpoint_set_protocol Role.source Proto.rtp_rs8m_source,
       Event.endpoint_set_host Role.source EXAMPLE_RECEIVER_IP,
       Event.endpoint_set_port Role.source EXAMPLE_RECEIVER_SOURCE_PORT,
       Event.sender_connect Role.source,
       Event.endpoint_deallocate Role.source] ∧
    (run allOk).1.filter (isEndpointEvent Role.repair) =
      [Event.endpoint_allocate Role.repair,
       Event.endpoint_set_protocol Role.repair Proto.rs8m_repair,
       Event.endpoint_set_host Role.repair EXAMPLE_RECEIVER_IP,
       Event.endpoint_set_port Role.repair EXAMPLE_RECEIVER_REPAIR_PORT,
       Event.sender_connect Role.repair,
       Event.endpoint_deallocate Role.repair] ∧
    ((run allOk).1.dropWhile fun e => !isWriteEvent e).countP
      (fun e => isEndpointEvent Role.source e ||
        isEndpointEvent Role.repair e) = 0 := by
  rw [run_allOk]
  refine ⟨?_, ?_, ?_⟩
  · show okTrace.filter _ = _
    rw [okTrace_filter (by decide)]; decide
  · show okTrace.filter _ = _
    rw [okTrace_filter (by decide)]; decide
  · show (okTrace.dropWhile _).countP _ = 0
    rw [okTrace_dropWhile_write, List.countP_append, List.countP_replicate]
    decide

/-! Claim C6. -/

/-- Claim C6: in the all-success run, `roc_sender_close` and
`roc_context_close` each occur exactly once; the sender close lies strictly
before the context close (it is in the maximal context-close-free prefix);
and from the context close on, no sender-session operation (open, connect,
write, sender close) occurs. -/
theorem C6_context_outlives_sender :
    (run allOk).1.countP isSenderCloseEvent = 1 ∧
    (run allOk).1.countP isCtxCloseEvent = 1 ∧
    ((run allOk).1.takeWhile fun e => !isCtxCloseEvent e).countP
      isSenderCloseEvent = 1 ∧
    ((run allOk).1.dropWhile fun e => !isCtxCloseEvent e).countP
      isSessionOpEvent = 0 := by
  rw [run_allOk]
  refine ⟨?_, ?_, ?_, ?_⟩
  · show okTrace.countP _ = 1
    rw [okTrace_countP (by decide)]; decide
  · show okTrace.countP _ = 1
    rw [okTrace_countP (by decide)]; decide
  · show (okTrace.takeWhile _).countP _ = 1
    rw [okTrace_takeWhile_ctx, List.countP_append, List.countP_append,
      List.countP_replicate]
    decide
  · show (okTrace.dropWhile _).countP _ = 0
    rw [okTrace_dropWhile_ctx]; decide

/-! Claim C4. -/

lemma mem_step {e ev : Event} {ok : Bool} {rest : List Event × ℕ}
    (h : e ∈ (step ok ev rest).1) : e = ev ∨ e ∈ rest.1 := by
  rw [step] at h
  split at h
  · exact List.mem_cons.mp h
  · exact Or.inl (by simpa using h)

lemma mem_emit {e ev : Event} {rest : List Event × ℕ}
    (h : e ∈ (emit ev rest).1) : e = ev ∨ e ∈ rest.1 :=
  List.mem_cons.mp h

lemma mem_writeLoop {env : Env} :
    ∀ k i e, e ∈ (writeLoop env i k).1 →
      e = Event.sender_write theFrame := by
  intro k
  induction k with
  | zero => intro i e h; simp [writeLoop] at h
  | succ k ih =>
    intro i e h
    rw [writeLoop] at h
    split at h
    · rcases List.mem_cons.mp h with h | h
      · exact h
      · exact ih (i + 1) e h
    · simpa using h

lemma mem_writePhase {env : Env} {e : Event} (h : e ∈ (writePhase env).1) :
    e ∈ (writeLoop env 0 numWrites).1 ∨ e = Event.sender_close ∨
      e = Event.ctx_close := by
  simp only [writePhase] at h
  split at h
  · rcases List.mem_append.mp h with h | h
    · exact Or.inl h
    · rcases mem_step h with h | h
      · exact Or.inr (Or.inl h)
      · rcases mem_step h with h | h
        · exact Or.inr (Or.inr h)
        · simp at h
  · exact Or.inl h

lemma run_write_frame {env : Env} {f : Frame}
    (h : Event.sender_write f ∈ (run env).1) : f = theFrame := by
  rw [run] at h
  rcases mem_step h with h | h; · exact absurd h (by simp)
  rcases mem_step h with h | h; · exact absurd h (by simp)
  rcases mem_step h with h | h; · exact absurd h (by simp)
  rcases mem_emit h with h | h; · exact absurd h (by simp)
  rcases mem_emit h with h | h; · exact absurd h (by simp)
  rcases mem_emit h with h | h; · exact absurd h (by simp)
  rcases mem_step h with h | h; · exact absurd h (by simp)
  rcases mem_step h with h | h; · exact absurd h (by simp)
  rcases mem_step h with h | h; · exact absurd h (by simp)
  rcases mem_emit h with h | h; · exact absurd h (by simp)
  rcases mem_emit h with h | h; · exact absurd h (by simp)
  rcases mem_emit h with h | h; · exact absurd h (by simp)
  rcases mem_step h with h | h; · exact absurd h (by simp)
  rcases mem_step h with h | h; · exact absurd h (by simp)
  rcases mem_writePhase h with h | h | h
  · simpa using mem_writeLoop numWrites 0 _ h
  · exact absurd h (by simp)
  · exact absurd h (by simp)

/-- Claim C4: every frame the example hands to `roc_sender_write` (in any
run of the oracle) is the 100-sample frame: its sample count, 100, is a
whole multiple of the configured stereo channel count 2, and its declared
byte length `samples_size` equals sample count times bytes per float
sample. -/
theorem C4_frames_wellformed (env : Env) (f : Frame)
    (h : Event.sender_write f ∈ (run env).1) :
    f.numSamples = EXAMPLE_BUFFER_SIZE ∧
    f.numSamples % channelCount exampleSenderConfig.frame_channels = 0 ∧
    f.samples_size = f.numSamples * floatBytes := by
  rw [run_write_frame h]
  exact ⟨rfl, by decide, rfl⟩

/-- Witness for claim C4 at the all-success run and the frame the program
passes. -/
theorem C4_witness :
    theFrame.numSamples = EXAMPLE_BUFFER_SIZE ∧
    theFrame.numSamples % channelCount exampleSenderConfig.frame_channels
      = 0 ∧
    theFrame.samples_size = theFrame.numSamples * floatBytes :=
  C4_frames_wellformed allOk theFrame (by
    rw [run_allOk]
    show Event.sender_write theFrame ∈ okTrace
    rw [okTrace]
    exact List.mem_append.mpr (Or.inl (List.mem_append.mpr (Or.inr
      (List.mem_replicate.mpr ⟨by norm_num [numWrites_eq], rfl⟩)))))

/-! Claim C2. -/

lemma writeLoop_snd_iff (env : Env) : ∀ k i,
    ((writeLoop env i k).2 = true) ↔
      ∀ j, j < k → env.write_ok (i + j) = true := by
  intro k
  induction k with
  | zero => intro i; simp [writeLoop]
  | succ k ih =>
    intro i
    rw [writeLoop]
    by_cases h : env.write_ok i = true
    · rw [if_pos h]
      show (writeLoop env (i + 1) k).2 = true ↔ _
      rw [ih (i + 1)]
      constructor
      · intro h2 j hj
        cases j with
        | zero => simpa using h
        | succ j =>
          have h3 := h2 j (by omega)
          have e : i + 1 + j = i + (j + 1) := by omega
          rwa [e] at h3
      · intro h2 j hj
        have h3 := h2 (j + 1) (by omega)
        have e : i + (j + 1) = i + 1 + j := by omega
        rwa [e] at h3
    · rw [if_neg h]
      show (false = true) ↔ _
      simp only [Bool.false_eq_true, false_iff]
      intro h2
      exact h (by simpa using h2 0 (by omega))

lemma step_snd (ok : Bool) (ev : Event) (rest : List Event × ℕ) :
    (step ok ev rest).2 = if ok then rest.2 else 1 := by
  rw [step]; split <;> rfl

lemma emit_snd (ev : Event) (rest : List Event × ℕ) :
    (emit ev rest).2 = rest.2 := rfl

lemma writePhase_snd (env : Env) :
    (writePhase env).2 =
      if (writeLoop env 0 numWrites).2 then
        if env.sender_close_ok then (if env.ctx_close_ok then 0 else 1)
        else 1
      else 1 := by
  rw [writePhase]
  by_cases h : (writeLoop env 0 numWrites).2 = true
  · rw [if_pos h, if_pos h]
    simp [step_snd]
  · rw [if_neg h, if_neg h]

lemma run_snd (env : Env) :
    (run env).2 =
      if env.ctx_open_ok then if env.sender_open_ok then
      if env.alloc_source_ok then if env.connect_source_ok then
      if env.dealloc_source_ok then if env.alloc_repair_ok then
      if env.connect_repair_ok then if env.dealloc_repair_ok then
      if (writeLoop env 0 numWrites).2 then
      if env.sender_close_ok then (if env.ctx_close_ok then 0 else 1)
      else 1 else 1 else 1 else 1 else 1 else 1 else 1 else 1 else 1
      else 1 := by
  rw [run]
  simp only [step_snd, emit_snd, writePhase_snd]

set_option maxHeartbeats 1000000 in
/-- Claim C2 (amended): the exit code is 0 exactly when every checked call
the program makes succeeds (the `roc_endpoint_set_*` results are discarded
by the example and cannot influence it), and the only other exit code is 1
— a single uniform failure code. -/
theorem C2_exit_code (env : Env) :
    ((run env).2 = 0 ↔ allCheckedOk env) ∧
    ((run env).2 = 0 ∨ (run env).2 = 1) := by
  have hw := writeLoop_snd_iff env numWrites 0
  simp only [Nat.zero_add] at hw
  rw [run_snd, allCheckedOk]
  split_ifs <;> simp_all

/-- Claim C2, as stated, is false: the exit code does not distinguish the
error categories of the taxonomy — a run whose only failure is
`roc_sender_open` (a configuration error) and a run whose only failure is
`roc_sender_write` (a format / backpressure / encode / transport error)
exit with the same code. -/
theorem C2_counterexample :
    ¬ (∀ env₁ env₂ : Env,
        ((run env₁).2 ≠ 0 ∧ (run env₁).1.getLast? =
          some (Event.sender_open exampleSenderConfig)) →
        ((run env₂).2 ≠ 0 ∧ (∃ f, (run env₂).1.getLast? =
          some (Event.sender_write f))) →
        (run env₁).2 ≠ (run env₂).2) := by
  intro hdist
  have h1 : run envSenderOpenFail =
      ([Event.ctx_open, Event.sender_open exampleSenderConfig], 1) := rfl
  have h2 : run envWriteFail =
      (okSetup ++ [Event.sender_write theFrame], 1) := rfl
  exact hdist envSenderOpenFail envWriteFail
    ⟨by rw [h1]; simp, by rw [h1]; rfl⟩
    ⟨by rw [h2]; simp, theFrame, by rw [h2]; rfl⟩
    (by rw [h1, h2])

/-! Claim C8. -/

lemma flatMap_pair_range : ∀ m : ℕ,
    ((List.range m).flatMap fun i => [i * 2, i * 2 + 1]) =
      List.range (m * 2) := by
  intro m
  induction m with
  | zero => rfl
  | succ m ih =>
    rw [List.range_succ, List.flatMap_append, ih,
      show (m + 1) * 2 = (m * 2 + 1) + 1 by ring, List.range_succ,
      List.range_succ]
    simp [List.append_assoc]

lemma gensineStores_even {n : ℕ} (h : n % 2 = 0) :
    gensineStores n = List.range n := by
  rw [gensineStores, flatMap_pair_range]
  congr 1
  omega

/-- Claim C8: every store of `gensine` targets an index `i * 2` or
`i * 2 + 1` with `i < num_samples / 2`, hence at most `num_samples - 1`
(stated as `j + 1 ≤ num_samples`); and for even `num_samples` every index
below `num_samples` is stored exactly once, so the buffer handed to
`roc_sender_write` is fully initialized. -/
theorem C8_stores_safe (n : ℕ) :
    (∀ j ∈ gensineStores n, j + 1 ≤ n) ∧
    (n % 2 = 0 → ∀ j, j < n → (gensineStores n).count j = 1) := by
  constructor
  · intro j hj
    rw [gensineStores, List.mem_flatMap] at hj
    obtain ⟨i, hi, hj⟩ := hj
    rw [List.mem_range] at hi
    simp only [List.mem_cons, List.mem_singleton] at hj
    rcases hj with rfl | hj
    · omega
    · rcases hj with rfl | hj
      · omega
      · simp at hj
  · intro h j hj
    rw [gensineStores_even h]
    exact List.count_eq_one_of_mem (List.nodup_range n)
      (List.mem_range.mpr hj)

/-- Witness for claim C8 at `num_samples = 6`: index 5 is a store target
and is in bounds, and index 3 is stored exactly once. -/
theorem C8_witness : 5 + 1 ≤ 6 ∧ (gensineStores 6).count 3 = 1 :=
  ⟨(C8_stores_safe 6).1 5 (by decide),
   (C8_stores_safe 6).2 (by decide) 3 (by decide)⟩

/-! Claim C9. -/

/-- Claim C9: in every batch `gensine` generates, the right-channel store
at index `i * 2 + 1` is the exact negation of the left-channel store at
index `i * 2`, for every pair index `i < num_samples / 2`. -/
theorem C9_right_is_neg_left (b n i : ℕ) (hi : i < n / 2) :
    ∃ v : ℝ, (i * 2, v) ∈ gensineWrites b n ∧
      (i * 2 + 1, -v) ∈ gensineWrites b n := by
  refine ⟨sampleVal (gensineStart b n + i), ?_, ?_⟩ <;>
  · rw [gensineWrites, List.mem_flatMap]
    exact ⟨i, List.mem_range.mpr hi, by simp⟩

/-- Witness for claim C9 at batch 0, `num_samples = 4`, pair index 1. -/
theorem C9_witness :
    ∃ v : ℝ, (1 * 2, v) ∈ gensineWrites 0 4 ∧
      (1 * 2 + 1, -v) ∈ gensineWrites 0 4 :=
  C9_right_is_neg_left 0 4 1 (by decide)

/-! Claim C10. -/

lemma sineCoef_pos : (0 : ℝ) < sineCoef := by
  rw [sineCoef]; norm_num

lemma sin_coef_six_lt_seven :
    Real.sin (sineCoef * 6) < Real.sin (sineCoef * 7) := by
  have hπ : (3 : ℝ) < Real.pi := Real.pi_gt_three
  have hc : (0 : ℝ) < sineCoef := sineCoef_pos
  have h7 : sineCoef * 7 ≤ 1.5 := by rw [sineCoef]; norm_num
  apply Real.strictMonoOn_sin
  · rw [Set.mem_Icc]
    constructor
    · nlinarith
    · nlinarith
  · rw [Set.mem_Icc]
    constructor
    · nlinarith
    · nlinarith
  · nlinarith

lemma specLeft_ne_code_value :
    specLeftSample 3 5 0 ≠ sampleVal (gensineStart 3 5 + 0) := by
  have h7 : gensineStart 3 5 + 0 = 7 := by
    rw [gensineStart]
    norm_num
  rw [h7, specLeftSample, sampleVal]
  have h6 : ((3 * (5 / 2) + 0 : ℕ) : ℝ) = 6 := by norm_num
  rw [h6]
  have hlt := sin_coef_six_lt_seven
  have h7c : ((7 : ℕ) : ℝ) = 7 := by norm_num
  rw [h7c]
  intro heq
  nlinarith

/-- Claim C10, as stated, is false: at `batch_num = 3` and
`num_samples = 5` the store at buffer index 0 (pair index 0's left channel)
is not the claimed `sin(coef * (b * (num_samples / 2) + i)) * 0.1`; the
code's time index is `(b * num_samples) / 2 + i = 7`, not
`b * (num_samples / 2) + i = 6`. -/
theorem C10_counterexample :
    (0 * 2, specLeftSample 3 5 0) ∉ gensineWrites 3 5 := by
  intro hmem
  rw [gensineWrites, List.mem_flatMap] at hmem
  obtain ⟨i, hi, hmem⟩ := hmem
  rw [List.mem_range] at hi
  simp only [List.mem_cons, List.mem_singleton, Prod.mk.injEq] at hmem
  rcases hmem with ⟨hidx, hval⟩ | hmem
  · have : i = 0 := by omega
    subst this
    simp only [Nat.add_zero] at hval
    exact specLeft_ne_code_value (by simpa using hval)
  · rcases hmem with ⟨hidx, hval⟩ | hmem
    · omega
    · simp at hmem

/-- Claim C10 (amended): for even `num_samples` (as used: 100) and in the
absence of `size_t` wraparound (`(b + 1) * num_samples < 2 ^ 64`), the left
sample of pair `i` of batch `b` is
`sin(coef * (b * (num_samples / 2) + i)) * 0.1`, and batch `b + 1` starts
exactly one past the last time index of batch `b` (its start index is
batch `b`'s start plus `num_samples / 2`). -/
theorem C10_phase_continuity (b n i : ℕ) (heven : n % 2 = 0)
    (hov : (b + 1) * n < 2 ^ 64) (hi : i < n / 2) :
    (i * 2, specLeftSample b n i) ∈ gensineWrites b n ∧
    gensineStart (b + 1) n = gensineStart b n + n / 2 := by
  obtain ⟨m, rfl⟩ : ∃ m, n = 2 * m := ⟨n / 2, by omega⟩
  have hm : 2 * m / 2 = m := by omega
  have hs : ∀ c : ℕ, c * (2 * m) < 2 ^ 64 → gensineStart c (2 * m) = c * m := by
    intro c hc
    rw [gensineStart, Nat.mod_eq_of_lt hc,
      show c * (2 * m) = 2 * (c * m) by ring,
      Nat.mul_div_cancel_left _ (by norm_num)]
  have hb : b * (2 * m) < 2 ^ 64 :=
    lt_of_le_of_lt (Nat.mul_le_mul_right _ (Nat.le_succ b)) hov
  constructor
  · have hval : specLeftSample b (2 * m) i =
        sampleVal (gensineStart b (2 * m) + i) := by
      rw [specLeftSample, sampleVal, hs b hb, hm]
    rw [gensineWrites, List.mem_flatMap]
    refine ⟨i, List.mem_range.mpr (by omega), ?_⟩
    rw [hval]
    exact List.mem_cons_self _ _
  · rw [hs (b + 1) hov, hs b hb, hm]
    ring

/-- Witness for claim C10 (amended) at batch 1, `num_samples = 4`, pair
index 1. -/
theorem C10_witness :
    (1 * 2, specLeftSample 1 4 1) ∈ gensineWrites 1 4 ∧
    gensineStart (1 + 1) 4 = gensineStart 1 4 + 4 / 2 :=
  C10_phase_continuity 1 4 1 (by decide) (by norm_num) (by decide)

/-! Claim C7 (spec-modelled stream encoder). -/

lemma encodeStream_mem_seq (cs : List (List ℝ)) :
    ∀ s p, p ∈ encodeStream s cs → s ≤ p.seq := by
  induction cs with
  | nil => intro s p hp; simp [encodeStream] at hp
  | cons c rest ih =>
    intro s p hp
    rcases List.mem_cons.mp hp with rfl | hp
    · exact le_refl _
    · exact le_trans (Nat.le_succ s) (ih (s + 1) p hp)

/-- Claim C7 (modelled from the spec, the encoder being library-internal):
for any initial sequence number and any sequence of packet payloads
produced by successful writes in one session, the stream encoder attaches
sequence numbers that increase by exactly one from packet to packet (no
gaps introduced by the encoder) and are strictly increasing (hence no
duplicates). -/
theorem C7_seq_numbers (s : ℕ) (cs : List (List ℝ)) :
    List.Chain' (fun p q : SourcePacket => q.seq = p.seq + 1)
      (encodeStream s cs) ∧
    List.Pairwise (fun p q : SourcePacket => p.seq < q.seq)
      (encodeStream s cs) := by
  constructor
  · induction cs generalizing s with
    | nil => simp [encodeStream]
    | cons c rest ih =>
      cases rest with
      | nil => simp [encodeStream]
      | cons d rest2 =>
        rw [encodeStream, encodeStream, List.chain'_cons]
        exact ⟨rfl, ih (s + 1)⟩
  · induction cs generalizing s with
    | nil => simp [encodeStream]
    | cons c rest ih =>
      rw [encodeStream]
      refine List.Pairwise.cons ?_ (ih (s + 1))
      intro p hp
      exact lt_of_lt_of_le (Nat.lt_succ_self s)
        (encodeStream_mem_seq rest (s + 1) p hp)

end SenderSinewave
